import Mathlib

/-!
Verification development for the kode-chatbot-backend conversation
orchestration and context-retrieval pipeline.

The Python sources (`app/models/chat.py`, `app/services/mongodb.py`,
`app/services/chatbot.py`) are shallowly embedded below.  External
collaborators (the Language Model, the Vector Index similarity search and
the Web Search endpoint) are passed in as function parameters; timestamps
(`datetime.now`) and fresh UUIDs (`uuid.uuid4()`) are likewise passed as
explicit parameters.  Similarity scores are modelled as rationals.
Fallible code is modelled with `Except Unit`.
-/

namespace KodeChatbot

/-- Embeds `ChatMessage` from `app/models/chat.py` (lines 9-14): a role
string ("user" or "assistant"), the content text, and a timestamp
(instants are modelled as naturals). -/
structure ChatMessage where
  role : String
  content : String
  timestamp : Nat
deriving Repr, DecidableEq

/-- Embeds `ConversationHistory` from `app/models/chat.py` (lines 34-41). -/
structure ConversationHistory where
  conversation_id : String
  messages : List ChatMessage
  title : Option String
  created_at : Nat
  updated_at : Nat
deriving Repr, DecidableEq

/-- Embeds LangChain `BaseMessage` as used by `app/services/chatbot.py`:
the code constructs `HumanMessage` and `AIMessage`; any other concrete
message class is mapped to role "system" by
`_convert_from_langchain_message`, represented here by `other`. -/
inductive BaseMessage where
  | human (content : String)
  | ai (content : String)
  | other (content : String)
deriving Repr, DecidableEq

/-- The `.content` attribute of a LangChain message. -/
def BaseMessage.content : BaseMessage → String
  | .human c => c
  | .ai c => c
  | .other c => c

/-- Assignment `message.content = c` (the message class is preserved). -/
def BaseMessage.withContent : BaseMessage → String → BaseMessage
  | .human _, c => .human c
  | .ai _, c => .ai c
  | .other _, c => .other c

/-- The MongoDB `conversations` collection, modelled as the list of stored
conversation documents (`app/services/mongodb.py`). -/
abbrev Store := List ConversationHistory

/-- Embeds `MongoDBService.get_conversation` (`app/services/mongodb.py`
lines 76-109): `find_one({"conversation_id": conversation_id})`. -/
def get_conversation (store : Store) (conversation_id : String) :
    Option ConversationHistory :=
  store.find? (fun c => c.conversation_id == conversation_id)

/-- Embeds `MongoDBService.save_conversation` (`app/services/mongodb.py`
lines 46-74): the document's `updated_at` is overwritten with the current
time (line 62) and the document is upserted keyed by `conversation_id`
(lines 65-69). -/
def save_conversation (store : Store) (conversation : ConversationHistory)
    (now : Nat) : Store :=
  let stamped := { conversation with updated_at := now }
  if store.any (fun c => c.conversation_id == conversation.conversation_id) then
    store.map (fun c =>
      if c.conversation_id == conversation.conversation_id then stamped else c)
  else
    store ++ [stamped]

/-- Embeds `ChatbotService.create_conversation` (`app/services/chatbot.py`
lines 160-174): builds a `ConversationHistory` with no messages, the given
title, `created_at = updated_at = now`, and saves it.  The fresh UUID is
the explicit parameter `conversation_id`. -/
def create_conversation (store : Store) (conversation_id : String)
    (title : Option String) (now : Nat) : Store :=
  save_conversation store
    { conversation_id := conversation_id
      messages := []
      title := title
      created_at := now
      updated_at := now } now

/-- Embeds the module-level `web_search` function
(`app/services/chatbot.py` lines 28-34): its body starts with
`return []`, so the HTTP request to the MCP server below that line is
unreachable and the function always returns the empty list. -/
def web_search (_query : String) : List String := []

/-- Embeds `ChatbotService.get_context` (`app/services/chatbot.py` lines
232-257), the synchronous retriever used by `build_topic_node`.  The
similarity search collaborator is `search` (a failing call is caught and
treated as zero results, lines 244-246); results are filtered by
`score > 0.7` (line 243).  In the zero-results branch the source reads
`web_results = []# await web_search(message)` (line 251): the Web Search
call is commented out, so the `web` collaborator is never consulted. -/
def get_context (search : String → Except Unit (List (String × ℚ)))
    (web : String → List String) (message : String) : String :=
  let relevant_docs : List (String × ℚ) :=
    match search message with
    | .ok docs => docs.filter (fun d => decide (mkRat 7 10 < d.2))
    | .error _ => []
  if relevant_docs.isEmpty then
    let web_results : List String := []
    String.intercalate " " web_results
  else
    String.intercalate " " (relevant_docs.map (fun d => d.1))

/-- Embeds `ChatbotService.aget_context` (`app/services/chatbot.py` lines
205-230), the asynchronous retriever used by `chat`.  Identical to
`get_context` except that the threshold is `0.9` (line 216) and the
zero-results branch really does `await web_search(message)` (line 224). -/
def aget_context (search : String → Except Unit (List (String × ℚ)))
    (web : String → List String) (message : String) : String :=
  let relevant_docs : List (String × ℚ) :=
    match search message with
    | .ok docs => docs.filter (fun d => decide (mkRat 9 10 < d.2))
    | .error _ => []
  if relevant_docs.isEmpty then
    String.intercalate " " (web message)
  else
    String.intercalate " " (relevant_docs.map (fun d => d.1))

/-- Embeds the turn classifier `is_touch_lesson` (`app/services/chatbot.py`
lines 134-147): it re-reads the conversation from the store (attribute
access on a `None` result would raise, modelled as `.error ()`), then
scans all messages with a for-loop that breaks at the first assistant
message whose content contains the substring `"<lesson>"` (modelled with
`List.any` and infix-of on the character lists).  Returns the routing
string "generated" (the Continuation path, to the `chat` node) or
"not_generated" (the FirstLesson path, to the `build_topic` node). -/
def is_touch_lesson (store : Store) (conversation_id : String) :
    Except Unit String :=
  match get_conversation store conversation_id with
  | none => .error ()
  | some conversation =>
      if conversation.messages.any (fun msg =>
          msg.role == "assistant" &&
            decide ("<lesson>".toList <:+: msg.content.toList)) then
        .ok "generated"
      else
        .ok "not_generated"

/-- Embeds `ChatbotService._convert_to_langchain_messages`
(`app/services/chatbot.py` lines 180-188): role "user" becomes a
`HumanMessage`, role "assistant" an `AIMessage`, and any other role is
skipped (no branch appends it). -/
def convert_to_langchain_messages : List ChatMessage → List BaseMessage
  | [] => []
  | msg :: rest =>
    if msg.role == "user" then
      BaseMessage.human msg.content :: convert_to_langchain_messages rest
    else if msg.role == "assistant" then
      BaseMessage.ai msg.content :: convert_to_langchain_messages rest
    else
      convert_to_langchain_messages rest

/-- Embeds `ChatbotService._convert_from_langchain_message`
(`app/services/chatbot.py` lines 190-203): `HumanMessage` maps to role
"user", `AIMessage` to "assistant", anything else to "system"; the
timestamp is the current time. -/
def convert_from_langchain_message (message : BaseMessage) (now : Nat) :
    ChatMessage :=
  match message with
  | .human c => { role := "user", content := c, timestamp := now }
  | .ai c => { role := "assistant", content := c, timestamp := now }
  | .other c => { role := "system", content := c, timestamp := now }

/-- The instruction template written into the popped user message by
`build_topic_node` (`app/services/chatbot.py` lines 98-114).  The Python
f-string is reproduced with its literal indentation; it embeds the
retrieved context and the original user content. -/
def topic_prompt (context : String) (user_content : String) : String :=
  "\n            Context: \n            ```md\n            " ++ context ++
  "\n            ```\n            Build a structured lesson for beginners about the following users's topic and above context:\n            User message:\n            " ++ user_content ++
  "\n\n            --------------------------------\n            The Output should be in the following format:\n            <h4><topic>Summarized topic from user message</topic></h4>\n            <lesson>Generated a lesson as HTML format</lesson>\n            --------------------------------\n            IMPORTANT:\n            - remove <br> tags in output\n            "

/-- Embeds `ChatbotService.build_topic_node` (`app/services/chatbot.py`
lines 90-121).  Inside a blanket `try` the node pops the last message
(`messages.pop()` raises IndexError on an empty list, modelled as the
error case of `attempt`), retrieves context for its content with the
synchronous `get_context`, overwrites the popped message's content with
the lesson instruction template, re-appends it and invokes the LLM.  Any
exception — including an LLM failure — is caught by the `except` clause,
which assigns the plain string "Error building topic" as the response;
LangGraph's `add_messages` reducer coerces a bare string into a
`HumanMessage`, which is how the fallback is represented here.  The node
therefore never fails: it always returns the one-element message delta. -/
def build_topic_node (llm : List BaseMessage → Except Unit BaseMessage)
    (search : String → Except Unit (List (String × ℚ)))
    (messages : List BaseMessage) : List BaseMessage :=
  let attempt : Except Unit BaseMessage :=
    match messages.getLast? with
    | none => .error ()
    | some user_message =>
        let message := user_message.content
        let context := get_context search web_search message
        let user_message := user_message.withContent (topic_prompt context message)
        llm (messages.dropLast ++ [user_message])
  match attempt with
  | .ok response => [response]
  | .error _ => [BaseMessage.human "Error building topic"]

/-- Embeds `ChatbotService.chat_node` (`app/services/chatbot.py` lines
85-88): invokes the LLM on the state's messages; an LLM failure
propagates (no try/except here). -/
def chat_node (llm : List BaseMessage → Except Unit BaseMessage)
    (messages : List BaseMessage) : Except Unit (List BaseMessage) :=
  match llm messages with
  | .ok response => .ok [response]
  | .error e => .error e

/-- Embeds one run of the compiled LangGraph graph
(`app/services/chatbot.py` lines 124-158): the conditional entry edge
evaluates `is_touch_lesson` on the persisted conversation and routes
"generated" to the `chat` node and "not_generated" to the `build_topic`
node; each node's returned delta is appended to the state's messages by
the `add_messages` reducer, and the final state's message list is
returned. -/
def graph_invoke (llm : List BaseMessage → Except Unit BaseMessage)
    (search : String → Except Unit (List (String × ℚ)))
    (store : Store) (conversation_id : String)
    (messages : List BaseMessage) : Except Unit (List BaseMessage) :=
  match is_touch_lesson store conversation_id with
  | .error e => .error e
  | .ok decision =>
    if decision == "generated" then
      match chat_node llm messages with
      | .ok delta => .ok (messages ++ delta)
      | .error e => .error e
    else
      .ok (messages ++ build_topic_node llm search messages)

/-- The constant `settings.openai_model` (`app/core/config.py` line 26). -/
def settings_openai_model : String := "gpt-3.5-turbo"

/-- The dictionary returned by `ChatbotService.chat`
(`app/services/chatbot.py` lines 317-322). -/
structure ChatResult where
  message : String
  conversation_id : String
  model : String
  timestamp : Nat
deriving Repr, DecidableEq

/-- Embeds `ChatbotService.chat` (`app/services/chatbot.py` lines
259-322).  Parameters: `llm` is the Language Model collaborator, `search`
the Vector Index collaborator, `newId` the fresh UUID that
`create_conversation` would generate, `now` the current time, `store` the
Conversation Store contents, `message` the user text and
`conversation_id?` the optional conversation id.  Returns the turn result
(or the propagated error) together with the store contents after the
turn.  Notable faithful details: when no id is given or the id does not
resolve, `create_conversation(message)` persists a fresh record (title =
the user text) before anything else; the `augmented_message` string
(line 287) is computed but never used afterwards, exactly as in the
source; the graph re-reads the persisted conversation for classification;
and the store write happens only after a successful graph run. -/
def chat (llm : List BaseMessage → Except Unit BaseMessage)
    (search : String → Except Unit (List (String × ℚ)))
    (newId : String) (now : Nat)
    (store : Store) (message : String) (conversation_id? : Option String) :
    Except Unit ChatResult × Store :=
  let s1 : String × Store :=
    match conversation_id? with
    | none => (newId, create_conversation store newId (some message) now)
    | some cid => (cid, store)
  let s2 : String × Store × Option ConversationHistory :=
    match get_conversation s1.2 s1.1 with
    | some conv => (s1.1, s1.2, some conv)
    | none =>
        let store2 := create_conversation s1.2 newId (some message) now
        (newId, store2, get_conversation store2 newId)
  match s2.2.2 with
  | none => (.error (), s2.2.1)
  | some conversation =>
    let conversation_id := s2.1
    let store := s2.2.1
    let user_message : ChatMessage :=
      { role := "user", content := message, timestamp := now }
    let conversation :=
      { conversation with messages := conversation.messages ++ [user_message] }
    let context := aget_context search web_search message
    let augmented_message :=
      "CONTEXT:\n```md\n" ++ context ++ "\n```\n-------------\nUSER MESSAGE:\n"
        ++ message
    let langchain_messages := convert_to_langchain_messages conversation.messages
    match graph_invoke llm search store conversation_id langchain_messages with
    | .error e => (.error e, store)
    | .ok result_messages =>
      match result_messages.getLast? with
      | none => (.error (), store)
      | some ai_response =>
        let ai_message := convert_from_langchain_message ai_response now
        let conversation :=
          if conversation.title.isNone then
            { conversation with title := some message }
          else conversation
        let conversation :=
          { conversation with
              messages := conversation.messages ++ [ai_message]
              updated_at := now }
        let store := save_conversation store conversation now
        (.ok { message := ai_message.content
               conversation_id := conversation_id
               model := settings_openai_model
               timestamp := now }, store)

/-- The summary dictionary built per document by
`MongoDBService.list_conversations` (`app/services/mongodb.py` lines
137-143).  Timestamps are kept as instants rather than ISO strings. -/
structure ConversationSummary where
  conversation_id : String
  message_count : Nat
  created_at : Nat
  updated_at : Nat
  last_message : String
deriving Repr, DecidableEq

/-- Builds one summary from one stored document
(`app/services/mongodb.py` lines 137-143): `last_message` is
`doc["messages"][-1]["content"][:50] + "..."` when the conversation has
messages, and the empty string otherwise. -/
def conversation_summary (doc : ConversationHistory) : ConversationSummary :=
  { conversation_id := doc.conversation_id
    message_count := doc.messages.length
    created_at := doc.created_at
    updated_at := doc.updated_at
    last_message :=
      match doc.messages.getLast? with
      | some m => m.content.take 50 ++ "..."
      | none => "" }

/-- The sort order requested from MongoDB by
`.sort("updated_at", -1)` (`app/services/mongodb.py` line 127):
`updated_at` descending. -/
def byUpdatedDesc (a b : ConversationHistory) : Prop :=
  b.updated_at ≤ a.updated_at

instance : DecidableRel byUpdatedDesc :=
  fun a b => Nat.decLe b.updated_at a.updated_at

instance : IsTotal ConversationHistory byUpdatedDesc :=
  ⟨fun a b => Nat.le_total b.updated_at a.updated_at⟩

instance : IsTrans ConversationHistory byUpdatedDesc :=
  ⟨fun _ _ _ h1 h2 => Nat.le_trans h2 h1⟩

/-- Embeds `MongoDBService.list_conversations` (`app/services/mongodb.py`
lines 111-150): the documents, sorted by `updated_at` descending (the
sort is delegated to MongoDB in the source and modelled here with
insertion sort), each mapped to its summary. -/
def list_conversations (store : Store) : List ConversationSummary :=
  (List.insertionSort byUpdatedDesc store).map conversation_summary

/-- A concrete assistant message carrying the lesson marker, for use in
witnesses. -/
def sampleLessonMessage : ChatMessage :=
  { role := "assistant", content := "<lesson>x</lesson>", timestamp := 1 }

/-- A concrete store holding one conversation that already contains a
generated lesson, for use in witnesses. -/
def sampleLessonConv : ConversationHistory :=
  { conversation_id := "c1"
    messages := [{ role := "user", content := "hi", timestamp := 0 },
                 sampleLessonMessage]
    title := some "hi", created_at := 0, updated_at := 1 }

/-- The singleton store holding `sampleLessonConv`. -/
def sampleLessonStore : Store := [sampleLessonConv]

/-- A probe Language Model that replies with the pipe-joined contents of
exactly the messages it was invoked on, making the outgoing request
observable in the persisted reply. -/
def probeLlm : List BaseMessage → Except Unit BaseMessage :=
  fun msgs => .ok (.ai (String.intercalate "|" (msgs.map BaseMessage.content)))

/-! ### Helper lemmas about the store operations -/

theorem get_conversation_eq_some {store : Store} {cid : String}
    {conv : ConversationHistory} (h : get_conversation store cid = some conv) :
    conv ∈ store ∧ conv.conversation_id = cid := by
  unfold get_conversation at h
  refine ⟨List.mem_of_find?_eq_some h, ?_⟩
  have := List.find?_some h
  simpa using this

theorem find?_map_eq_map_find? {α : Type} (f : α → α) (q : α → Bool)
    (hq : ∀ a, q (f a) = q a) :
    ∀ l : List α, (l.map f).find? q = (l.find? q).map f := by
  intro l
  induction l with
  | nil => rfl
  | cons a l ih =>
    cases hqa : q a with
    | true =>
      rw [List.map_cons, List.find?_cons_of_pos _ (by rw [hq a]; exact hqa),
        List.find?_cons_of_pos _ hqa]
      rfl
    | false =>
      rw [List.map_cons,
        List.find?_cons_of_neg _ (by rw [hq a]; exact of_decide_eq_false (by simpa using hqa)),
        List.find?_cons_of_neg _ (by exact of_decide_eq_false (by simpa using hqa)), ih]

theorem get_save_self (store : Store) (conv : ConversationHistory) (now : Nat) :
    get_conversation (save_conversation store conv now) conv.conversation_id =
      some { conv with updated_at := now } := by
  unfold save_conversation get_conversation
  by_cases hany : store.any (fun c => c.conversation_id == conv.conversation_id)
  · rw [if_pos hany]
    rw [find?_map_eq_map_find? _ _ ?hq]
    case hq =>
      intro a
      by_cases ha : (a.conversation_id == conv.conversation_id) = true
      · rw [if_pos ha]
        simp only [ha]
        exact beq_self_eq_true _
      · rw [if_neg ha]
    have hsome : ∃ a, a ∈ store ∧ (a.conversation_id == conv.conversation_id) = true := by
      simpa [List.any_eq_true] using hany
    rcases Option.isSome_iff_exists.mp (List.find?_isSome.mpr hsome) with ⟨a, hfa⟩
    rw [hfa]
    have hqa := List.find?_some hfa
    rw [Option.map_some']
    rw [if_pos hqa]
  · rw [if_neg hany]
    rw [List.find?_append]
    have hnone :
        store.find? (fun c => c.conversation_id == conv.conversation_id) = none := by
      rw [List.find?_eq_none]
      intro x hx hpx
      exact hany (List.any_eq_true.mpr ⟨x, hx, hpx⟩)
    rw [hnone]
    simp [List.find?]

theorem get_save_other (store : Store) (conv : ConversationHistory) (now : Nat)
    (cid : String) (hne : cid ≠ conv.conversation_id) :
    get_conversation (save_conversation store conv now) cid =
      get_conversation store cid := by
  unfold save_conversation get_conversation
  have hconvcid : (conv.conversation_id == cid) = false :=
    beq_eq_false_iff_ne.mpr fun h => hne h.symm
  by_cases hany : store.any (fun c => c.conversation_id == conv.conversation_id)
  · rw [if_pos hany]
    rw [find?_map_eq_map_find? _ _ ?hq]
    case hq =>
      intro a
      by_cases ha : (a.conversation_id == conv.conversation_id) = true
      · rw [if_pos ha]
        have haid : a.conversation_id = conv.conversation_id := by simpa using ha
        show (conv.conversation_id == cid) = (a.conversation_id == cid)
        rw [haid]
      · rw [if_neg ha]
    cases hf : store.find? (fun c => c.conversation_id == cid) with
    | none => rfl
    | some a =>
      have hqa := List.find?_some hf
      have haid : a.conversation_id = cid := by simpa using hqa
      have hano : (a.conversation_id == conv.conversation_id) = false := by
        rw [haid]
        exact beq_eq_false_iff_ne.mpr hne
      rw [Option.map_some']
      rw [if_neg (by simp [hano])]
  · rw [if_neg hany]
    rw [List.find?_append]
    have hlast : (([{ conv with updated_at := now }] : Store).find?
        (fun c => c.conversation_id == cid)) = none := by
      rw [List.find?_eq_none]
      intro x hx hpx
      rw [List.mem_singleton] at hx
      subst hx
      exact absurd hpx (by simp [hconvcid])
    rw [hlast]
    cases store.find? (fun c => c.conversation_id == cid) <;> rfl

theorem mem_save {store : Store} {conv c : ConversationHistory} {now : Nat}
    (h : c ∈ save_conversation store conv now) :
    c = { conv with updated_at := now } ∨ c ∈ store := by
  unfold save_conversation at h
  split at h
  · rcases List.mem_map.mp h with ⟨a, ha, hac⟩
    by_cases hid : a.conversation_id = conv.conversation_id
    · rw [if_pos (by simpa using hid)] at hac
      exact Or.inl hac.symm
    · rw [if_neg (by simpa using hid)] at hac
      exact Or.inr (hac ▸ ha)
  · rcases List.mem_append.mp h with ha | ha
    · exact Or.inr ha
    · exact Or.inl (by simpa using ha)

/-! ### Claim theorems -/

/-- Claim C4 (confirmed): the retriever `get_context` keeps exactly the
passages with score strictly greater than the threshold 0.7 and returns
their texts space-joined in the similarity-search-returned order, without
consulting the Web Search collaborator; in particular for scores
[0.95, 0.8, 0.6] it returns the concatenation of exactly the first two
texts in order. -/
theorem threshold_filter_correct (docs : List (String × ℚ))
    (web : String → List String) (message : String)
    (h : docs.filter (fun d => decide (mkRat 7 10 < d.2)) ≠ []) :
    get_context (fun _ => .ok docs) web message =
      String.intercalate " "
        ((docs.filter (fun d => decide (mkRat 7 10 < d.2))).map (fun d => d.1)) ∧
    (∀ web2, get_context (fun _ => .ok docs) web2 message =
      get_context (fun _ => .ok docs) web message) ∧
    get_context (fun _ => .ok [("A", mkRat 19 20), ("B", mkRat 4 5), ("C", mkRat 3 5)]) web
      message = "A B" := by
  refine ⟨?_, fun _ => rfl, rfl⟩
  unfold get_context
  simp only
  rw [if_neg (by simpa [List.isEmpty_iff] using h)]

/-- Witness for `threshold_filter_correct` at the spec's concrete input. -/
theorem threshold_filter_correct_witness :
    get_context (fun _ => .ok [("A", mkRat 19 20), ("B", mkRat 4 5), ("C", mkRat 3 5)])
        (fun _ => []) "q" =
      String.intercalate " "
        (([(("A" : String), mkRat 19 20), ("B", mkRat 4 5), ("C", mkRat 3 5)].filter
            (fun d => decide (mkRat 7 10 < d.2))).map (fun d => d.1)) ∧
    (∀ web2, get_context (fun _ => .ok [("A", mkRat 19 20), ("B", mkRat 4 5), ("C", mkRat 3 5)])
        web2 "q" =
      get_context (fun _ => .ok [("A", mkRat 19 20), ("B", mkRat 4 5), ("C", mkRat 3 5)])
        (fun _ => []) "q") ∧
    get_context (fun _ => .ok [("A", mkRat 19 20), ("B", mkRat 4 5), ("C", mkRat 3 5)])
      (fun _ => []) "q" = "A B" :=
  threshold_filter_correct [("A", mkRat 19 20), ("B", mkRat 4 5), ("C", mkRat 3 5)]
    (fun _ => []) "q" (by decide)

/-- Claim C3 is refuted at a concrete input: one retrieved passage scores
0.5, so zero passages pass the 0.7 threshold, and the Web Search
collaborator would return the snippet list ["snippet"], whose space-join
is "snippet"; yet `get_context` returns "" — the Web Search fallback is
not consulted (its call is commented out in the source). -/
theorem web_fallback_not_invoked :
    get_context (fun _ => .ok [("irrelevant", mkRat 1 2)])
        (fun _ => ["snippet"]) "query" = "" ∧
    String.intercalate " " ["snippet"] = "snippet" ∧
    ("" : String) ≠ "snippet" :=
  ⟨rfl, rfl, by decide⟩

/-- Claim C3 as amended (proved): whenever zero retrieved passages pass
the 0.7 threshold — and likewise when the similarity search itself fails —
`get_context` returns the empty string as context, for every Web Search
collaborator (which it never consults), and no error is raised, so
retrieval never fails the overall turn. -/
theorem empty_context_on_no_passing (docs : List (String × ℚ))
    (web : String → List String) (message : String)
    (h : docs.filter (fun d => decide (mkRat 7 10 < d.2)) = []) :
    get_context (fun _ => .ok docs) web message = "" ∧
    get_context (fun _ => .error ()) web message = "" := by
  constructor
  · unfold get_context
    simp only
    rw [if_pos (by simp [h])]
    rfl
  · rfl

/-- Witness for `empty_context_on_no_passing`. -/
theorem empty_context_on_no_passing_witness :
    get_context (fun _ => .ok [(("irrelevant" : String), mkRat 1 2)])
        (fun _ => ["snippet"]) "q" = "" ∧
    get_context (fun _ => .error ()) (fun _ => ["snippet"]) "q" = "" :=
  empty_context_on_no_passing [("irrelevant", mkRat 1 2)] (fun _ => ["snippet"]) "q"
    (by decide)

/-- Claim C5 (confirmed): the turn classifier returns "generated" (the
Continuation route) if and only if some assistant message anywhere in the
stored conversation's full message history contains the lesson marker
`<lesson>` as a substring, and "not_generated" (the FirstLesson
route) otherwise; being a pure function of the store it is deterministic
for a fixed history. -/
theorem classify_continuation_iff (store : Store) (cid : String)
    (conv : ConversationHistory) (h : get_conversation store cid = some conv) :
    (is_touch_lesson store cid = .ok "generated" ↔
      ∃ m ∈ conv.messages, m.role = "assistant" ∧
        "<lesson>".toList <:+: m.content.toList) ∧
    (is_touch_lesson store cid = .ok "not_generated" ↔
      ¬ ∃ m ∈ conv.messages, m.role = "assistant" ∧
        "<lesson>".toList <:+: m.content.toList) := by
  have hexp : is_touch_lesson store cid =
      (if conv.messages.any (fun msg =>
          msg.role == "assistant" &&
            decide ("<lesson>".toList <:+: msg.content.toList)) then
        Except.ok "generated" else Except.ok "not_generated") := by
    unfold is_touch_lesson
    rw [h]
  by_cases hany : conv.messages.any (fun msg =>
      msg.role == "assistant" && decide ("<lesson>".toList <:+: msg.content.toList))
  · have hex : ∃ m ∈ conv.messages, m.role = "assistant" ∧
        "<lesson>".toList <:+: m.content.toList := by
      simpa [List.any_eq_true, Bool.and_eq_true, beq_iff_eq,
        decide_eq_true_eq] using hany
    rw [hexp, if_pos hany]
    constructor
    · exact iff_of_true rfl hex
    · refine iff_of_false ?_ (not_not_intro hex)
      intro hcontra
      exact absurd (Except.ok.inj hcontra) (by decide)
  · have hnex : ¬ ∃ m ∈ conv.messages, m.role = "assistant" ∧
        "<lesson>".toList <:+: m.content.toList := by
      intro hex
      apply hany
      simpa [List.any_eq_true, Bool.and_eq_true, beq_iff_eq,
        decide_eq_true_eq] using hex
    rw [hexp, if_neg hany]
    constructor
    · refine iff_of_false ?_ hnex
      intro hcontra
      exact absurd (Except.ok.inj hcontra) (by decide)
    · exact iff_of_true rfl hnex

/-- Witness for `classify_continuation_iff`. -/
theorem classify_continuation_iff_witness :
    (is_touch_lesson sampleLessonStore "c1" = .ok "generated" ↔
      ∃ m ∈ sampleLessonConv.messages, m.role = "assistant" ∧
        "<lesson>".toList <:+: m.content.toList) ∧
    (is_touch_lesson sampleLessonStore "c1" = .ok "not_generated" ↔
      ¬ ∃ m ∈ sampleLessonConv.messages, m.role = "assistant" ∧
        "<lesson>".toList <:+: m.content.toList) :=
  classify_continuation_iff sampleLessonStore "c1" sampleLessonConv rfl

/-- Claim C6 is refuted at the concrete empty input: with an empty message
history, `build_topic_node` does not raise any error — the IndexError from
`messages.pop()` is swallowed by the node's blanket exception handler —
and the node instead silently produces the placeholder response
"Error building topic". -/
theorem empty_history_yields_placeholder :
    build_topic_node (fun _ => .ok (.ai "reply")) (fun _ => .ok []) [] =
      [BaseMessage.human "Error building topic"] := rfl

/-- Claim C6 as amended (proved): if the message history is empty when the
FirstLesson rewrite is attempted, the failure of `messages.pop()` is
caught inside `build_topic_node` and the node returns the placeholder
response "Error building topic" for every Language Model and every
retriever; no error is raised and the turn does not fail (the source has
no `EmptyHistoryError`). -/
theorem empty_history_no_error
    (llm : List BaseMessage → Except Unit BaseMessage)
    (search : String → Except Unit (List (String × ℚ))) :
    build_topic_node llm search [] = [BaseMessage.human "Error building topic"] :=
  rfl

/-- Claim C10 (confirmed): converting stored messages to the model-facing
sequence maps, in order, exactly the messages whose role is "user" (to a
human message) or "assistant" (to an AI message), and silently drops every
message with any other role; in the reverse direction an unrecognized
model message is given the role "system". -/
theorem convert_filters_roles (messages : List ChatMessage) :
    convert_to_langchain_messages messages =
      (messages.filter (fun m => m.role == "user" || m.role == "assistant")).map
        (fun m => if m.role == "user" then BaseMessage.human m.content
                  else BaseMessage.ai m.content) ∧
    (∀ c now, (convert_from_langchain_message (BaseMessage.other c) now).role =
      "system") := by
  refine ⟨?_, fun _ _ => rfl⟩
  induction messages with
  | nil => rfl
  | cons m rest ih =>
    simp only [convert_to_langchain_messages, List.filter_cons]
    by_cases hu : m.role = "user"
    · simp [hu, ih]
    · by_cases ha : m.role = "assistant"
      · simp [hu, ha, ih]
      · simp [hu, ha, ih]

/-- Claim C2, evaluated at the failing input (code bug): on a Continuation
turn for the stored conversation `sampleLessonConv` with user text "more"
and retrieved context "ctx" (one passage scoring 0.95), the message
sequence the Language Model receives is the history with the raw user
text "more" as the last content — the probe model echoes
"hi|" ++ the lesson message ++ "|more" — and no message in that
sequence contains the preamble head "CONTEXT:".  The source computes the
`augmented_message` preamble at `app/services/chatbot.py` line 287 but
never uses it, so the claimed replacement does not happen. -/
theorem continuation_request_not_augmented :
    (chat probeLlm (fun _ => .ok [("ctx", mkRat 19 20)]) "fresh" 2
        sampleLessonStore "more" (some "c1")).1 =
      .ok { message := "hi|<lesson>x</lesson>|more"
            conversation_id := "c1"
            model := settings_openai_model
            timestamp := 2 } ∧
    ¬ "CONTEXT:".toList <:+: "hi|<lesson>x</lesson>|more".toList :=
  ⟨rfl, by decide⟩

/-- Claim C1 is refuted at a concrete input: a turn on a brand-new
conversation (no conversation id) with a Language Model that always
fails.  The turn does not fail — `build_topic_node` catches the model
error and substitutes the placeholder "Error building topic" — and a
record for the new conversation id is persisted (it was already created
by `create_conversation` before the model was invoked, and the turn then
saves the user message together with the placeholder). -/
theorem llm_failure_still_persists_new_conversation :
    (chat (fun _ => .error ()) (fun _ => .ok []) "new-id" 5 [] "hello"
        none).1 =
      .ok { message := "Error building topic"
            conversation_id := "new-id"
            model := settings_openai_model
            timestamp := 5 } ∧
    get_conversation
        (chat (fun _ => .error ()) (fun _ => .ok []) "new-id" 5 [] "hello"
          none).2 "new-id" =
      some { conversation_id := "new-id"
             messages := [{ role := "user", content := "hello", timestamp := 5 },
                          { role := "user", content := "Error building topic",
                            timestamp := 5 }]
             title := some "hello", created_at := 5, updated_at := 5 } :=
  ⟨rfl, rfl⟩

theorem save_preserves {store : Store} {conv : ConversationHistory} {now : Nat}
    (P : ConversationHistory → Prop) (hP : ∀ c ∈ store, P c)
    (hnew : P { conv with updated_at := now }) :
    ∀ c ∈ save_conversation store conv now, P c := by
  intro c hc
  rcases mem_save hc with h | h
  · exact h ▸ hnew
  · exact hP c h

theorem get_create_self (store : Store) (newId : String) (title : Option String)
    (now : Nat) :
    get_conversation (create_conversation store newId title now) newId =
      some { conversation_id := newId, messages := [], title := title,
             created_at := now, updated_at := now } := by
  unfold create_conversation
  simpa using get_save_self store
    { conversation_id := newId, messages := [], title := title,
      created_at := now, updated_at := now } now

theorem get_create_other (store : Store) (newId : String) (title : Option String)
    (now : Nat) (cid : String) (hne : cid ≠ newId) :
    get_conversation (create_conversation store newId title now) cid =
      get_conversation store cid :=
  get_save_other store _ now cid hne

theorem mem_create {store : Store} {newId : String} {title : Option String}
    {now : Nat} {c : ConversationHistory}
    (h : c ∈ create_conversation store newId title now) :
    c = { conversation_id := newId, messages := [], title := title,
          created_at := now, updated_at := now } ∨ c ∈ store := by
  unfold create_conversation at h
  rcases mem_save h with h | h
  · exact Or.inl h
  · exact Or.inr h

theorem get_save_result (store : Store) (conv : ConversationHistory) (now : Nat)
    (cid : String) :
    get_conversation (save_conversation store conv now) cid =
      if cid = conv.conversation_id then some { conv with updated_at := now }
      else get_conversation store cid := by
  by_cases h : cid = conv.conversation_id
  · rw [if_pos h, h]
    exact get_save_self store conv now
  · rw [if_neg h]
    exact get_save_other store conv now cid h

/-- Claim C1 as amended (proved): when the conversation id resolves and
the turn is classified as a Continuation (the "generated" route, through
the `chat` node), a Language Model failure propagates, the turn as a
whole fails, and the Conversation Store is returned unchanged — the
in-memory appended user message is discarded.  (As the counterexample
`llm_failure_still_persists_new_conversation` shows, the unqualified
claim is false: in the FirstLesson route the model failure is swallowed
and the turn persists, and for a brand-new conversation a record is
created and persisted before the model is invoked.) -/
theorem llm_failure_leaves_store_unchanged
    (search : String → Except Unit (List (String × ℚ)))
    (newId : String) (now : Nat) (store : Store) (message : String)
    (cid : String) (conv : ConversationHistory)
    (llm : List BaseMessage → Except Unit BaseMessage)
    (hget : get_conversation store cid = some conv)
    (hlesson : is_touch_lesson store cid = .ok "generated")
    (hfail : llm (convert_to_langchain_messages (conv.messages ++
        [{ role := "user", content := message, timestamp := now }])) = .error ()) :
    chat llm search newId now store message (some cid) = (.error (), store) := by
  unfold chat
  simp only [hget]
  unfold graph_invoke chat_node
  rw [hlesson]
  simp only [hfail]
  rfl

/-- Witness for `llm_failure_leaves_store_unchanged`. -/
theorem llm_failure_leaves_store_unchanged_witness :
    chat (fun _ => .error ()) (fun _ => .ok []) "fresh" 2 sampleLessonStore
        "more" (some "c1") = (.error (), sampleLessonStore) :=
  llm_failure_leaves_store_unchanged (fun _ => .ok []) "fresh" 2
    sampleLessonStore "more" "c1" sampleLessonConv (fun _ => .error ())
    rfl rfl rfl

/-- Claim C7 (confirmed): on every successful turn for a resolved
conversation, the persisted conversation's title equals the previous
title when it was set (no turn ever changes a set title), and equals the
turn's user text when it was unset — and a stored conversation has an
unset title only before its first successful turn, when its message list
is still empty, so that user text is the raw first user text; the
`conversation_id` and `created_at` fields (all fields other than
`messages`, `title` and `updated_at`) are unchanged. -/
theorem title_set_once_and_frame
    (llm : List BaseMessage → Except Unit BaseMessage)
    (search : String → Except Unit (List (String × ℚ)))
    (newId : String) (now : Nat) (store : Store) (message : String)
    (cid : String) (conv : ConversationHistory) (r : ChatResult) (store' : Store)
    (hget : get_conversation store cid = some conv)
    (hrun : chat llm search newId now store message (some cid) = (.ok r, store')) :
    ∃ conv', get_conversation store' cid = some conv' ∧
      conv'.title = some (conv.title.getD message) ∧
      conv'.conversation_id = conv.conversation_id ∧
      conv'.created_at = conv.created_at := by
  have hcid : conv.conversation_id = cid := (get_conversation_eq_some hget).2
  unfold chat at hrun
  simp only [hget] at hrun
  split at hrun
  · exact absurd hrun (by simp)
  · split at hrun
    · exact absurd hrun (by simp)
    · rename_i result_messages heq ai_response hlast
      obtain ⟨hr, hs⟩ := Prod.ext_iff.mp hrun
      dsimp only at hs
      subst hs
      rcases htitle : conv.title with _ | t
      · simp only [htitle, Option.isNone_none, if_true] at *
        refine ⟨{ conversation_id := conv.conversation_id
                  messages := (conv.messages ++
                      [{ role := "user", content := message, timestamp := now }]) ++
                    [convert_from_langchain_message ai_response now]
                  title := some message
                  created_at := conv.created_at
                  updated_at := now }, ?_, rfl, rfl, rfl⟩
        rw [← hcid]
        exact get_save_self _ _ _
      · simp only [htitle, Option.isNone_some, if_false] at *
        refine ⟨{ conversation_id := conv.conversation_id
                  messages := (conv.messages ++
                      [{ role := "user", content := message, timestamp := now }]) ++
                    [convert_from_langchain_message ai_response now]
                  title := some t
                  created_at := conv.created_at
                  updated_at := now }, ?_, rfl, rfl, rfl⟩
        rw [← hcid]
        exact get_save_self _ _ _

/-- Witness for `title_set_once_and_frame`. -/
theorem title_set_once_and_frame_witness :
    ∃ conv', get_conversation
        (chat probeLlm (fun _ => .ok []) "fresh" 2 sampleLessonStore "more"
          (some "c1")).2 "c1" = some conv' ∧
      conv'.title = some (sampleLessonConv.title.getD "more") ∧
      conv'.conversation_id = sampleLessonConv.conversation_id ∧
      conv'.created_at = sampleLessonConv.created_at :=
  title_set_once_and_frame probeLlm (fun _ => .ok []) "fresh" 2
    sampleLessonStore "more" "c1" sampleLessonConv
    { message := "hi|<lesson>x</lesson>|more", conversation_id := "c1",
      model := settings_openai_model, timestamp := 2 }
    (chat probeLlm (fun _ => .ok []) "fresh" 2 sampleLessonStore "more"
      (some "c1")).2
    rfl rfl

/-- Claim C9 (confirmed): assuming the fresh id is really fresh and the
clock has not gone backwards (every stored conversation was created no
later than `now`), a turn preserves the invariant
`created_at ≤ updated_at` for every persisted conversation, never changes
the `created_at` of any conversation that was already stored, and on
success the conversation saved under the returned id has its `updated_at`
refreshed to the current time. -/
theorem timestamps_monotone_and_refreshed
    (llm : List BaseMessage → Except Unit BaseMessage)
    (search : String → Except Unit (List (String × ℚ)))
    (newId : String) (now : Nat) (store : Store) (message : String)
    (cid? : Option String)
    (hfresh : ∀ c ∈ store, c.conversation_id ≠ newId)
    (hwf : ∀ c ∈ store, c.created_at ≤ c.updated_at)
    (hnow : ∀ c ∈ store, c.created_at ≤ now) :
    (∀ c ∈ (chat llm search newId now store message cid?).2,
        c.created_at ≤ c.updated_at) ∧
    (∀ cid conv conv', get_conversation store cid = some conv →
        get_conversation (chat llm search newId now store message cid?).2 cid =
          some conv' → conv'.created_at = conv.created_at) ∧
    (∀ r, (chat llm search newId now store message cid?).1 = .ok r →
        ∃ conv', get_conversation (chat llm search newId now store message cid?).2
            r.conversation_id = some conv' ∧ conv'.updated_at = now) := by
  have hcreate_wf : ∀ c ∈ create_conversation store newId (some message) now,
      c.created_at ≤ c.updated_at := by
    intro c hc
    rcases mem_create hc with h | h
    · subst h; exact Nat.le_refl _
    · exact hwf c h
  have hne_of_get : ∀ cid conv, get_conversation store cid = some conv →
      cid ≠ newId := by
    intro cid conv hg
    obtain ⟨hmem, hid⟩ := get_conversation_eq_some hg
    exact hid ▸ hfresh conv hmem
  rcases cid? with _ | cid
  · -- no conversation id given: a fresh conversation is created first
    unfold chat
    simp only [get_create_self, List.nil_append, Option.isNone_some, Bool.false_eq_true,
      if_false, ite_false]
    split
    · -- the graph run failed
      refine ⟨hcreate_wf, ?_, ?_⟩
      · intro cid conv conv' hg hg'
        rw [get_create_other _ _ _ _ _ (hne_of_get cid conv hg)] at hg'
        exact (Option.some.inj (hg.symm.trans hg')) ▸ rfl
      · intro r hr
        exact absurd hr (by simp)
    · split
      · -- the graph produced no messages (unreachable in practice)
        refine ⟨hcreate_wf, ?_, ?_⟩
        · intro cid conv conv' hg hg'
          rw [get_create_other _ _ _ _ _ (hne_of_get cid conv hg)] at hg'
          exact (Option.some.inj (hg.symm.trans hg')) ▸ rfl
        · intro r hr
          exact absurd hr (by simp)
      · -- the turn succeeded; the final save happens
        rename_i ai_response hlast
        refine ⟨?_, ?_, ?_⟩
        · refine save_preserves _ hcreate_wf ?_
          exact Nat.le_refl _
        · intro cid conv conv' hg hg'
          have hne := hne_of_get cid conv hg
          rw [get_save_other _ _ _ _ hne] at hg'
          rw [get_create_other _ _ _ _ _ hne] at hg'
          exact (Option.some.inj (hg.symm.trans hg')) ▸ rfl
        · intro r hr
          dsimp only at hr
          rw [← Except.ok.inj hr]
          exact ⟨_, get_save_self _ _ _, rfl⟩
  · -- a conversation id was supplied
    rcases hg0 : get_conversation store cid with _ | conv
    · -- the id does not resolve: behaves like the fresh-conversation path
      unfold chat
      simp only [hg0, get_create_self, List.nil_append, Option.isNone_some,
        Bool.false_eq_true, if_false, ite_false]
      split
      · refine ⟨hcreate_wf, ?_, ?_⟩
        · intro cid1 conv1 conv' hg hg'
          rw [get_create_other _ _ _ _ _ (hne_of_get cid1 conv1 hg)] at hg'
          exact (Option.some.inj (hg.symm.trans hg')) ▸ rfl
        · intro r hr
          exact absurd hr (by simp)
      · split
        · refine ⟨hcreate_wf, ?_, ?_⟩
          · intro cid1 conv1 conv' hg hg'
            rw [get_create_other _ _ _ _ _ (hne_of_get cid1 conv1 hg)] at hg'
            exact (Option.some.inj (hg.symm.trans hg')) ▸ rfl
          · intro r hr
            exact absurd hr (by simp)
        · rename_i ai_response hlast
          refine ⟨?_, ?_, ?_⟩
          · refine save_preserves _ hcreate_wf ?_
            exact Nat.le_refl _
          · intro cid1 conv1 conv' hg hg'
            have hne := hne_of_get cid1 conv1 hg
            rw [get_save_other _ _ _ _ hne] at hg'
            rw [get_create_other _ _ _ _ _ hne] at hg'
            exact (Option.some.inj (hg.symm.trans hg')) ▸ rfl
          · intro r hr
            dsimp only at hr
            rw [← Except.ok.inj hr]
            exact ⟨_, get_save_self _ _ _, rfl⟩
    · -- the id resolves to a stored conversation
      have hcid : conv.conversation_id = cid := (get_conversation_eq_some hg0).2
      have hmem0 : conv ∈ store := (get_conversation_eq_some hg0).1
      unfold chat
      simp only [hg0]
      rcases htitle : conv.title with _ | t <;>
        [simp only [htitle, Option.isNone_none, if_true, ite_true];
         simp only [htitle, Option.isNone_some, Bool.false_eq_true, if_false,
           ite_false]] <;>
      · split
        · refine ⟨hwf, ?_, ?_⟩
          · intro cid1 conv1 conv' hg hg'
            exact (Option.some.inj (hg.symm.trans hg')) ▸ rfl
          · intro r hr
            exact absurd hr (by simp)
        · split
          · refine ⟨hwf, ?_, ?_⟩
            · intro cid1 conv1 conv' hg hg'
              exact (Option.some.inj (hg.symm.trans hg')) ▸ rfl
            · intro r hr
              exact absurd hr (by simp)
          · rename_i ai_response hlast
            refine ⟨?_, ?_, ?_⟩
            · refine save_preserves _ hwf ?_
              exact hnow conv hmem0
            · intro cid1 conv1 conv' hg hg'
              rw [get_save_result] at hg'
              by_cases hceq : cid1 = conv.conversation_id
              · rw [if_pos hceq] at hg'
                rw [← Option.some.inj hg']
                have hconv1 : conv1 = conv :=
                  Option.some.inj (((hceq.trans hcid) ▸ hg).symm.trans hg0)
                rw [hconv1]
              · rw [if_neg hceq] at hg'
                exact (Option.some.inj (hg.symm.trans hg')) ▸ rfl
            · intro r hr
              dsimp only at hr
              rw [← Except.ok.inj hr]
              dsimp only
              rw [get_save_result, if_pos hcid.symm]
              exact ⟨_, rfl, rfl⟩

/-- Witness for `timestamps_monotone_and_refreshed`. -/
theorem timestamps_monotone_and_refreshed_witness :
    (∀ c ∈ (chat probeLlm (fun _ => .ok []) "fresh2" 7 sampleLessonStore
        "again" (some "c1")).2, c.created_at ≤ c.updated_at) ∧
    (∀ cid conv conv', get_conversation sampleLessonStore cid = some conv →
        get_conversation (chat probeLlm (fun _ => .ok []) "fresh2" 7
            sampleLessonStore "again" (some "c1")).2 cid = some conv' →
          conv'.created_at = conv.created_at) ∧
    (∀ r, (chat probeLlm (fun _ => .ok []) "fresh2" 7 sampleLessonStore
          "again" (some "c1")).1 = .ok r →
        ∃ conv', get_conversation (chat probeLlm (fun _ => .ok []) "fresh2" 7
            sampleLessonStore "again" (some "c1")).2 r.conversation_id =
          some conv' ∧ conv'.updated_at = 7) :=
  timestamps_monotone_and_refreshed probeLlm (fun _ => .ok []) "fresh2" 7
    sampleLessonStore "again" (some "c1")
    (by intro c hc; cases List.mem_singleton.mp hc; decide)
    (by intro c hc; cases List.mem_singleton.mp hc; decide)
    (by intro c hc; cases List.mem_singleton.mp hc; decide)

/-- Claim C8 (confirmed): `list_conversations` returns exactly one summary
per stored conversation (a permutation of the summaries of the store),
ordered by `updated_at` descending, and each summary's `last_message` is
the content of the conversation's last message truncated to at most 50
characters and followed by the ellipsis "...", or the empty string when
the conversation has no messages. -/
theorem list_summaries_sorted (store : Store) :
    List.Perm (list_conversations store) (store.map conversation_summary) ∧
    List.Sorted (fun a b : ConversationSummary => b.updated_at ≤ a.updated_at)
      (list_conversations store) ∧
    (∀ doc : ConversationHistory, doc.messages ≠ [] →
      ∃ m, doc.messages.getLast? = some m ∧
        (conversation_summary doc).last_message = m.content.take 50 ++ "..." ∧
        (m.content.take 50).length ≤ 50) ∧
    (∀ doc : ConversationHistory, doc.messages = [] →
      (conversation_summary doc).last_message = "") := by
  refine ⟨?_, ?_, ?_, ?_⟩
  · exact (List.perm_insertionSort byUpdatedDesc store).map conversation_summary
  · exact List.Pairwise.map conversation_summary (fun a b h => h)
      (List.sorted_insertionSort byUpdatedDesc store)
  · intro doc hne
    obtain ⟨m, hm⟩ := Option.isSome_iff_exists.mp
      (List.getLast?_isSome.mpr hne)
    refine ⟨m, hm, ?_, ?_⟩
    · unfold conversation_summary
      dsimp only
      rw [hm]
    · rw [String.take_eq]
      simp only [String.length]
      rw [List.length_take]
      exact Nat.min_le_left _ _
  · intro doc h
    unfold conversation_summary
    dsimp only
    rw [h]
    rfl

end KodeChatbot
